import Mathlib

set_option linter.unusedVariables false
set_option maxRecDepth 16384

/-!
Shallow embedding of the container-runtime resolution layer of the `act`
fork (package `pkg/container`: `runtime_detector.go`, `factory.go`,
`null_container.go`).  External effects (environment variables, the
filesystem, live daemon probes, subprocess calls) are supplied through a
`World` record of oracles; every function of the source that reads such
state takes the `World` as an explicit argument.  Go strings are Lean
`String`s, Go slices are Lean lists (except where the nil/non-nil slice
distinction matters, where `Option (List _)` is used).
-/

namespace Act

/-- ASCII lowercase of one character (model of Go `strings.ToLower` for the
ASCII range, which is the only range compared against in the source). -/
def lowerChar (c : Char) : Char :=
  if 'A' ≤ c ∧ c ≤ 'Z' then Char.ofNat (c.toNat + 32) else c

/-- Model of Go `strings.ToLower` (ASCII range). -/
def strToLower (s : String) : String :=
  String.mk (s.data.map lowerChar)

/-- `isPref n h` : the char list `n` is a prefix of `h`. -/
def isPref : List Char → List Char → Bool
  | [], _ => true
  | _ :: _, [] => false
  | a :: as, b :: bs => a == b && isPref as bs

/-- `containsSub needle hay` : `needle` occurs as a contiguous substring of
`hay` (model of Go `strings.Contains`). -/
def containsSub (needle : List Char) : List Char → Bool
  | [] => isPref needle []
  | c :: t => isPref needle (c :: t) || containsSub needle t

/-- Model of Go `strings.Contains s sub`. -/
def strContains (s sub : String) : Bool :=
  containsSub sub.data s.data

/-- Model of Go `strings.HasPrefix s pre`. -/
def strHasPref (s pre : String) : Bool :=
  isPref pre.data s.data

/-- Model of Go `filepath.ToSlash` on a Windows-style host: replace every
backslash separator by a forward slash. -/
def toSlash (s : String) : String :=
  String.mk (s.data.map fun c => if c = '\\' then '/' else c)

/-- `ContainerRuntime` from `runtime_detector.go`: the closed enumeration of
backend identities. -/
inductive ContainerRuntime
  | unknown
  | docker
  | podman
deriving DecidableEq, Repr

/-- `RuntimeSocket` from `runtime_detector.go`: a socket candidate with a
backend identity and a priority score. -/
structure RuntimeSocket where
  Path : String
  Runtime : ContainerRuntime
  Score : Nat
deriving DecidableEq, Repr

/-- The result of `os.Lstat`'s mode bits that `socketExists` inspects:
whether the entry is a unix socket and whether it is a named pipe.  An
ordinary file has both flags false. -/
structure FileMode where
  isSocket : Bool
  isNamedPipe : Bool
deriving DecidableEq, Repr

/-- Oracle record for every external effect the source performs: environment
variables (`getenv`, `""` means unset), `os.ExpandEnv`, `os.Lstat`
(`none` = error), the live ping of a socket candidate
(`verifySocketConn`), the outcomes of `verifyDocker`/`verifyPodman`
(binary lookup plus live round trip), the Docker `socketLocation` helper
(defined elsewhere in the repository), the trimmed-before output of the
`podman machine inspect` subprocess (`none` = command error), and
`os.Stat` success. -/
structure World where
  getenv : String → String
  expandEnv : String → String
  lstat : String → Option FileMode
  verifySocketConn : RuntimeSocket → Bool
  verifyDockerB : Bool
  verifyPodmanB : Bool
  socketLocation : Option String
  machineInspect : Option String
  statOk : String → Bool

/-- `RuntimeDetector` configuration fields from `runtime_detector.go`
(the logger is dropped). -/
structure RuntimeDetector where
  preferredRuntime : ContainerRuntime
  customSocket : String
deriving DecidableEq, Repr

/-- `NewRuntimeDetector`: no preference, no custom socket. -/
def NewRuntimeDetector : RuntimeDetector :=
  ⟨.unknown, ""⟩

/-- `verifyRuntime` from `runtime_detector.go`: dispatch to the per-backend
verification, `false` for `Unknown`. -/
def verifyRuntime (w : World) : ContainerRuntime → Bool
  | .docker => w.verifyDockerB
  | .podman => w.verifyPodmanB
  | .unknown => false

/-- `checkEnvironmentHints` from `runtime_detector.go`. -/
def checkEnvironmentHints (w : World) : ContainerRuntime :=
  let act := w.getenv "ACT_CONTAINER_RUNTIME"
  if act ≠ "" ∧ strToLower act = "docker" then .docker
  else if act ≠ "" ∧ strToLower act = "podman" then .podman
  else if w.getenv "PODMAN_HOST" ≠ "" then .podman
  else if w.getenv "DOCKER_HOST" ≠ "" then .docker
  else .unknown

/-- `socketExists` from `runtime_detector.go`: `os.Lstat` succeeds and the
mode has the socket or named-pipe bit. -/
def socketExists (w : World) (path : String) : Bool :=
  match w.lstat path with
  | some m => m.isSocket || m.isNamedPipe
  | none => false

/-- `guessRuntimeFromSocket` from `runtime_detector.go`. -/
def guessRuntimeFromSocket (socket : String) : ContainerRuntime :=
  let lower := strToLower socket
  if strContains lower "podman" then .podman
  else if strContains lower "docker" then .docker
  else .docker

/-- The socket candidate table from `detectRuntimeSockets`. -/
def candidateTable : List RuntimeSocket :=
  [ ⟨"$XDG_RUNTIME_DIR/podman/podman.sock", .podman, 95⟩,
    ⟨"/run/podman/podman.sock", .podman, 90⟩,
    ⟨"$HOME/.local/share/containers/podman/machine/podman.sock", .podman, 85⟩,
    ⟨"/var/run/docker.sock", .docker, 80⟩,
    ⟨"$HOME/.colima/docker.sock", .docker, 75⟩,
    ⟨"$XDG_RUNTIME_DIR/docker.sock", .docker, 70⟩,
    ⟨"$HOME/.docker/run/docker.sock", .docker, 65⟩,
    ⟨"\\\\.\\pipe\\docker_engine", .docker, 60⟩,
    ⟨"\\\\.\\pipe\\podman-machine-default", .podman, 85⟩ ]

/-- The candidate-scan loop of `detectRuntimeSockets`: expand each table
path, keep it (with the expanded path) when `socketExists` holds.
Encounter order is preserved. -/
def discoveredSockets (w : World) : List RuntimeSocket :=
  candidateTable.filterMap fun c =>
    let expanded := w.expandEnv c.Path
    if socketExists w expanded then
      some ⟨expanded, c.Runtime, c.Score⟩
    else
      none

/-- One run of the inner loop of the exchange sort in
`detectRuntimeSockets`, with `cur` standing for `available[i]` and the list
argument for `available[i+1..]`: whenever the current element's score is
strictly below a later one, the two are swapped.  Returns the final
`available[i]` together with the rewritten tail. -/
def selectMax (cur : RuntimeSocket) : List RuntimeSocket → RuntimeSocket × List RuntimeSocket
  | [] => (cur, [])
  | x :: xs =>
    if cur.Score < x.Score then
      let p := selectMax x xs
      (p.1, cur :: p.2)
    else
      let p := selectMax cur xs
      (p.1, x :: p.2)

theorem selectMax_len (cur : RuntimeSocket) (l : List RuntimeSocket) :
    (selectMax cur l).2.length = l.length := by
  induction l generalizing cur with
  | nil => rfl
  | cons x xs ih =>
    simp only [selectMax]
    split <;> simp [ih]

/-- The outer loop of the exchange sort in `detectRuntimeSockets`, with an
explicit fuel argument (the fuel is always instantiated with the list
length, which `selectMax` preserves, so the `0` arm is never taken for a
non-empty list). -/
def sortSocketsAux : Nat → List RuntimeSocket → List RuntimeSocket
  | 0, l => l
  | _ + 1, [] => []
  | n + 1, x :: xs =>
    let p := selectMax x xs
    p.1 :: sortSocketsAux n p.2

/-- The outer loop of the exchange sort in `detectRuntimeSockets`: sorts by
score, highest first. -/
def sortSockets (l : List RuntimeSocket) : List RuntimeSocket :=
  sortSocketsAux l.length l

/-- `detectRuntimeSockets` from `runtime_detector.go`: a configured custom
socket is the only candidate (score 100, backend guessed from the path);
otherwise the table is scanned and the survivors sorted by descending
score. -/
def detectRuntimeSockets (rd : RuntimeDetector) (w : World) : List RuntimeSocket :=
  if rd.customSocket ≠ "" then
    [⟨rd.customSocket, guessRuntimeFromSocket rd.customSocket, 100⟩]
  else
    sortSockets (discoveredSockets w)

/-- The verification loop of `autoDetectRuntime`: first socket in list
order that passes the live connection check. -/
def firstVerified (w : World) : List RuntimeSocket → Option RuntimeSocket
  | [] => none
  | s :: rest => if w.verifySocketConn s then some s else firstVerified w rest

/-- `autoDetectRuntime` from `runtime_detector.go`. -/
def autoDetectRuntime (rd : RuntimeDetector) (w : World) : ContainerRuntime :=
  match firstVerified w (detectRuntimeSockets rd w) with
  | some s => s.Runtime
  | none => .unknown

/-- `DetectAvailableRuntime` from `runtime_detector.go`: explicit
preference, then environment hints, then auto-detection. -/
def DetectAvailableRuntime (rd : RuntimeDetector) (w : World) : ContainerRuntime :=
  if rd.preferredRuntime ≠ .unknown ∧ verifyRuntime w rd.preferredRuntime then
    rd.preferredRuntime
  else
    let hint := checkEnvironmentHints w
    if hint ≠ .unknown ∧ verifyRuntime w hint then hint
    else autoDetectRuntime rd w

/-- `getPodmanMachineSocket` from `runtime_detector.go`: trim the
subprocess output, reject empty or `<no value>`, require `os.Stat`
success. -/
def getPodmanMachineSocket (w : World) : Option String :=
  match w.machineInspect with
  | none => none
  | some output =>
    let socketPath := output.trim
    if socketPath = "" ∨ socketPath = "<no value>" then none
    else if w.statOk socketPath then some socketPath
    else none

/-- The URI normalization in `verifySocketConnection` and
`GetSocketForRuntime`: `npipe://` for Windows pipe paths, `unix://`
otherwise. -/
def normalizeURI (p : String) : String :=
  if strHasPref p "\\\\.\\" then "npipe://" ++ toSlash p
  else "unix://" ++ p

/-- `GetSocketForRuntime` from `runtime_detector.go`. -/
def GetSocketForRuntime (rd : RuntimeDetector) (w : World) (runtime : ContainerRuntime) : Option String :=
  if rd.customSocket ≠ "" then some rd.customSocket
  else
    match (if runtime = .podman then getPodmanMachineSocket w else none) with
    | some socketPath => some ("unix://" ++ socketPath)
    | none =>
      match (detectRuntimeSockets rd w).find? (fun s =>
          s.Runtime == runtime && w.verifySocketConn s) with
      | some s => some (normalizeURI s.Path)
      | none => none

/-- The constant opening of `GetHelpfulErrorMessage` up to and including the
`Current detection status:` line (the successive `WriteString` calls of
`runtime_detector.go` concatenated). -/
def helpHeader : String :=
  "No container runtime detected\n\n" ++
  "Act requires either Docker or Podman to run GitHub Actions locally.\n\n" ++
  "Install options:\n" ++
  "  Docker:  https://docs.docker.com/get-docker/\n" ++
  "  Podman:  https://podman.io/getting-started/installation\n\n" ++
  "Current detection status:\n"

/-- The Docker status line of `GetHelpfulErrorMessage`. -/
def dockerStatusLine (w : World) : String :=
  let dockerStatus := if w.verifyDockerB then "✓" else "✗"
  match w.socketLocation with
  | some dockerSocket => "  " ++ dockerStatus ++ " Docker (socket: " ++ dockerSocket ++ ")\n"
  | none => "  ✗ Docker daemon not running (no socket found)\n"

/-- The Podman status line of `GetHelpfulErrorMessage`. -/
def podmanStatusLine (w : World) : String :=
  "  " ++ (if w.verifyPodmanB then "✓" else "✗") ++ " Podman (binary check)\n"

/-- The constant closing of `GetHelpfulErrorMessage`. -/
def helpFooter : String :=
  "\nOverride detection with:\n" ++
  "  act --container-runtime=docker\n" ++
  "  act --container-runtime=podman\n" ++
  "  act --container-socket=/custom/socket\n"

/-- `GetHelpfulErrorMessage` from `runtime_detector.go`. -/
def GetHelpfulErrorMessage (w : World) : String :=
  helpHeader ++ dockerStatusLine w ++ podmanStatusLine w ++ helpFooter

/-! ## Factory (`factory.go`) -/

/-- The process-wide mutable state of `factory.go`: the test-only
`runtimeOverride` and the `globalDetector`. -/
structure FactoryState where
  runtimeOverride : ContainerRuntime
  detector : RuntimeDetector
deriving DecidableEq, Repr

/-- `configureDetectorFromEnvironment` from `factory.go`.  Note the exact
(case-sensitive) string match on `ACT_CONTAINER_RUNTIME`. -/
def configureDetectorFromEnvironment (w : World) (d : RuntimeDetector) : RuntimeDetector :=
  let d1 :=
    if w.getenv "ACT_CONTAINER_RUNTIME" = "docker" then
      { d with preferredRuntime := .docker }
    else if w.getenv "ACT_CONTAINER_RUNTIME" = "podman" then
      { d with preferredRuntime := .podman }
    else d
  if w.getenv "ACT_CONTAINER_SOCKET" ≠ "" then
    { d1 with customSocket := w.getenv "ACT_CONTAINER_SOCKET" }
  else d1

/-- `getSelectedRuntime` from `factory.go`: the test override wins when not
`Unknown`; otherwise the detector is reconfigured from the environment and
full detection runs.  Returns the selected runtime together with the
detector state after the call (the override itself is never written). -/
def getSelectedRuntime (st : FactoryState) (w : World) : ContainerRuntime × RuntimeDetector :=
  if st.runtimeOverride ≠ .unknown then
    (st.runtimeOverride, st.detector)
  else
    let d := configureDetectorFromEnvironment w st.detector
    (DetectAvailableRuntime d w, d)

/-- `GetCurrentRuntime` from `factory.go`. -/
def GetCurrentRuntime (st : FactoryState) (w : World) : ContainerRuntime :=
  (getSelectedRuntime st w).1

/-- `GetRuntimeDetectionError` from `factory.go`. -/
def GetRuntimeDetectionError (st : FactoryState) (w : World) : String :=
  GetHelpfulErrorMessage w

/--
Modelled from the spec: `ContainerSpec` (§3) — the caller-supplied
description of the container (image reference, name; further fields are
owned by the broader execution engine and treated as opaque).  The Go type
`NewContainerInput` is declared outside the files under `src/`.
-/
structure NewContainerInput where
  Image : String
  Name : String
deriving DecidableEq, Repr

/-- Which adapter a factory entry point instantiates (`newDockerContainer`,
`newPodmanContainer`, `newNullContainer`). -/
inductive AdapterKind
  | dockerAdapter
  | podmanAdapter
  | nullAdapter
deriving DecidableEq, Repr

/-- The adapter chosen for a resolved runtime in `NewContainer`. -/
def adapterFor : ContainerRuntime → AdapterKind
  | .podman => .podmanAdapter
  | .docker => .dockerAdapter
  | .unknown => .nullAdapter

/-- `NewContainer` from `factory.go`: resolve, then dispatch on the
runtime; the Null Adapter when resolution yields `Unknown`.  Returns the
adapter kind and the detector state after the embedded resolution call. -/
def NewContainer (input : NewContainerInput) (st : FactoryState) (w : World) :
    AdapterKind × RuntimeDetector :=
  let r := getSelectedRuntime st w
  (adapterFor r.1, r.2)

/-- `NewContainerWithRuntime` from `factory.go`: verify the caller-forced
runtime first; the Null Adapter on verification failure and for the
(unreachable after verification) `Unknown` arm.  Reads only the global
detector, never the test override; the whole `FactoryState` is passed to
mirror the Go package scope. -/
def NewContainerWithRuntime (input : NewContainerInput) (st : FactoryState) (w : World)
    (runtime : ContainerRuntime) : AdapterKind :=
  if !(verifyRuntime w runtime) then .nullAdapter
  else
    match runtime with
    | .podman => .podmanAdapter
    | .docker => .dockerAdapter
    | .unknown => .nullAdapter

/-- Go `append` on a possibly-nil slice (`Option.none` models the nil
slice): the result of an `append` is always non-nil. -/
def goAppend (s : Option (List ContainerRuntime)) (x : ContainerRuntime) :
    Option (List ContainerRuntime) :=
  some ((s.getD []) ++ [x])

/-- `GetAvailableRuntimes` from `factory.go`, keeping Go's nil/non-nil
slice distinction: `var available []ContainerRuntime` starts nil and is
only turned non-nil by an `append`. -/
def GetAvailableRuntimes (st : FactoryState) (w : World) : Option (List ContainerRuntime) :=
  let available : Option (List ContainerRuntime) := none
  let available := if verifyRuntime w .docker then goAppend available .docker else available
  let available := if verifyRuntime w .podman then goAppend available .podman else available
  available

/-- A sequence of resolution calls from a given state: each call threads
the (possibly reconfigured) detector into the next, while the override
field is left as is (only `SetRuntimeOverride`/`ClearRuntimeOverride`
write it). -/
def resolveSeq (st : FactoryState) : List World → List ContainerRuntime
  | [] => []
  | w :: ws =>
    let r := getSelectedRuntime st w
    r.1 :: resolveSeq ⟨st.runtimeOverride, r.2⟩ ws

/-! ## Null container (`null_container.go`) -/

/--
Modelled from the spec: the `FileEntry` items passed to `Copy` (§4.3
"copy one or more file entries"); the Go type is declared outside the
files under `src/`.  Treated as opaque payload (name and body). -/
structure FileEntry where
  Name : String
  Body : String
deriving DecidableEq, Repr

/--
Modelled from the spec: the coarse health status of §4.3
(healthy/unhealthy/unknown); the Go `Health` type and its
`HealthUnHealthy` constant are declared outside the files under `src/`. -/
inductive Health
  | healthy
  | unhealthy
  | unknownHealth
deriving DecidableEq, Repr

namespace nullContainer

/-- The error value every mutating operation of `null_container.go`
returns: `fmt.Errorf("no container runtime available\n\n%s", GetRuntimeDetectionError())`. -/
def noRuntimeMessage (w : World) : String :=
  "no container runtime available\n\n" ++ GetHelpfulErrorMessage w

def Create (w : World) (capAdd capDrop : List String) : Except String Unit :=
  .error (noRuntimeMessage w)

def Copy (w : World) (destPath : String) (files : List FileEntry) : Except String Unit :=
  .error (noRuntimeMessage w)

def CopyTarStream (w : World) (destPath : String) (tarStream : String) : Except String Unit :=
  .error (noRuntimeMessage w)

def CopyDir (w : World) (destPath srcPath : String) (useGitIgnore : Bool) : Except String Unit :=
  .error (noRuntimeMessage w)

def Pull (w : World) (forcePull : Bool) : Except String Unit :=
  .error (noRuntimeMessage w)

def Start (w : World) (attach : Bool) : Except String Unit :=
  .error (noRuntimeMessage w)

def Exec (w : World) (command : List String) (env : List (String × String))
    (user workdir : String) : Except String Unit :=
  .error (noRuntimeMessage w)

def UpdateFromEnv (w : World) (srcPath : String) : Except String Unit :=
  .error (noRuntimeMessage w)

def UpdateFromImageEnv (w : World) : Except String Unit :=
  .error (noRuntimeMessage w)

def Remove (w : World) : Except String Unit :=
  .error (noRuntimeMessage w)

def Close (w : World) : Except String Unit :=
  .error (noRuntimeMessage w)

def ReplaceLogWriter {α : Type} (stdout stderr : α) : α × α :=
  (stdout, stderr)

def GetHealth : Health :=
  .unhealthy

def ToContainerPath (path : String) : String :=
  path

def GetActPath : String :=
  "/opt/act"

def GetPathVariableName : String :=
  "PATH"

def DefaultPathVariable : String :=
  "/usr/local/sbin:/usr/local/bin:/usr/sbin:/usr/bin:/sbin:/bin"

def GetRunnerContext : List (String × String) :=
  [ ("os", "linux"),
    ("arch", "x64"),
    ("temp", "/tmp"),
    ("tool_cache", "/opt/hostedtoolcache"),
    ("action_path", "/github/workspace"),
    ("workspace", "/github/workspace") ]

def IsEnvironmentCaseInsensitive : Bool :=
  false

end nullContainer

/-! ## Spec-side selection function (for the refinement statement of the
auto-detection claim) -/

/-- Written from the spec's words (§8, §4.1.2), to be compared with the
source-derived `autoDetectRuntime`: among the discovered candidates that
pass live verification, the one with the strictly highest score, ties
between equal scores broken by encounter order — i.e. the first
candidate, in encounter order, whose score equals the maximum verified
score. -/
def specSelect (w : World) (l : List RuntimeSocket) : Option RuntimeSocket :=
  let verified := l.filter fun s => w.verifySocketConn s
  let best := (verified.map RuntimeSocket.Score).foldr max 0
  verified.find? fun s => s.Score == best

/-! ## Helper lemmas: the exchange sort -/

theorem selectMax_perm (cur : RuntimeSocket) (l : List RuntimeSocket) :
    List.Perm ((selectMax cur l).1 :: (selectMax cur l).2) (cur :: l) := by
  induction l generalizing cur with
  | nil => simp [selectMax]
  | cons x xs ih =>
    simp only [selectMax]
    split
    · exact (List.Perm.swap cur (selectMax x xs).1 (selectMax x xs).2).trans
        (List.Perm.cons cur (ih x))
    · exact ((List.Perm.swap x (selectMax cur xs).1 (selectMax cur xs).2).trans
        (List.Perm.cons x (ih cur))).trans (List.Perm.swap cur x xs)

theorem selectMax_cur_le (cur : RuntimeSocket) (l : List RuntimeSocket) :
    cur.Score ≤ (selectMax cur l).1.Score := by
  induction l generalizing cur with
  | nil => simp [selectMax]
  | cons x xs ih =>
    simp only [selectMax]
    split
    · exact le_trans (le_of_lt (by assumption)) (ih x)
    · exact ih cur

theorem selectMax_le (cur : RuntimeSocket) (l : List RuntimeSocket) :
    ∀ y ∈ (selectMax cur l).2, y.Score ≤ (selectMax cur l).1.Score := by
  induction l generalizing cur with
  | nil => simp [selectMax]
  | cons x xs ih =>
    intro y hy
    by_cases hlt : cur.Score < x.Score
    · simp only [selectMax, if_pos hlt] at hy ⊢
      rcases List.mem_cons.mp hy with h | h
      · subst h
        exact le_trans (le_of_lt hlt) (selectMax_cur_le x xs)
      · exact ih x y h
    · simp only [selectMax, if_neg hlt] at hy ⊢
      rcases List.mem_cons.mp hy with h | h
      · subst h
        exact le_trans (by omega) (selectMax_cur_le cur xs)
      · exact ih cur y h

theorem sortSocketsAux_perm :
    ∀ (n : Nat) (l : List RuntimeSocket), l.length ≤ n →
      List.Perm (sortSocketsAux n l) l := by
  intro n
  induction n with
  | zero =>
    intro l h
    cases l with
    | nil => simp [sortSocketsAux]
    | cons x xs => simp at h
  | succ n ih =>
    intro l h
    cases l with
    | nil => simp [sortSocketsAux]
    | cons x xs =>
      simp only [sortSocketsAux]
      have hlen : (selectMax x xs).2.length ≤ n := by
        rw [selectMax_len]
        simpa using h
      exact (List.Perm.cons (selectMax x xs).1 (ih _ hlen)).trans (selectMax_perm x xs)

theorem sortSockets_perm (l : List RuntimeSocket) : List.Perm (sortSockets l) l :=
  sortSocketsAux_perm l.length l (le_refl _)

theorem sortSocketsAux_sorted :
    ∀ (n : Nat) (l : List RuntimeSocket), l.length ≤ n →
      (sortSocketsAux n l).Pairwise (fun a b => b.Score ≤ a.Score) := by
  intro n
  induction n with
  | zero =>
    intro l h
    cases l with
    | nil => simp [sortSocketsAux]
    | cons x xs => simp at h
  | succ n ih =>
    intro l h
    cases l with
    | nil => simp [sortSocketsAux]
    | cons x xs =>
      simp only [sortSocketsAux]
      have hlen : (selectMax x xs).2.length ≤ n := by
        rw [selectMax_len]
        simpa using h
      refine List.Pairwise.cons ?_ (ih _ hlen)
      intro y hy
      exact selectMax_le x xs y ((sortSocketsAux_perm n _ hlen).mem_iff.mp hy)

theorem sortSockets_sorted (l : List RuntimeSocket) :
    (sortSockets l).Pairwise (fun a b => b.Score ≤ a.Score) :=
  sortSocketsAux_sorted l.length l (le_refl _)

/-! ## Helper lemmas: substring containment -/

theorem isPref_append (n h b : List Char) (hp : isPref n h = true) :
    isPref n (h ++ b) = true := by
  induction n generalizing h with
  | nil => simp [isPref]
  | cons a as ih =>
    cases h with
    | nil => simp [isPref] at hp
    | cons c cs =>
      simp only [isPref, Bool.and_eq_true] at hp
      simp only [List.cons_append, isPref, Bool.and_eq_true]
      exact ⟨hp.1, ih cs hp.2⟩

theorem containsSub_append_left (n a b : List Char) (h : containsSub n a = true) :
    containsSub n (a ++ b) = true := by
  induction a with
  | nil =>
    simp only [containsSub] at h
    cases n with
    | nil =>
      cases b with
      | nil => simpa [containsSub] using h
      | cons c cs => simp [containsSub, isPref]
    | cons x xs => simp [isPref] at h
  | cons c cs ih =>
    simp only [containsSub, Bool.or_eq_true] at h
    rcases h with h | h
    · simp only [List.cons_append, containsSub, Bool.or_eq_true]
      exact Or.inl (isPref_append n (c :: cs) b h)
    · simp only [List.cons_append, containsSub, Bool.or_eq_true]
      exact Or.inr (ih h)

theorem strData_append (a b : String) : (a ++ b).data = a.data ++ b.data := rfl

theorem strContains_append_left (a b sub : String) (h : strContains a sub = true) :
    strContains (a ++ b) sub = true := by
  simpa [strContains, strData_append] using containsSub_append_left sub.data a.data b.data h

theorem isPref_self_append (p q : List Char) : isPref p (p ++ q) = true := by
  induction p with
  | nil => simp [isPref]
  | cons a as ih => simp [isPref, ih]

/-! ## Helper lemmas: socket discovery -/

theorem mem_discoveredSockets (w : World) (s : RuntimeSocket)
    (hs : s ∈ discoveredSockets w) :
    socketExists w s.Path = true ∧
    (s.Score, s.Runtime) ∈ candidateTable.map (fun c => (c.Score, c.Runtime)) ∧
    ∃ c ∈ candidateTable, s.Path = w.expandEnv c.Path := by
  simp only [discoveredSockets, List.mem_filterMap] at hs
  obtain ⟨c, hc, hfc⟩ := hs
  by_cases hex : socketExists w (w.expandEnv c.Path) = true
  · simp only [hex, if_pos] at hfc
    cases hfc
    exact ⟨hex, by simpa using List.mem_map_of_mem (fun c => (c.Score, c.Runtime)) hc,
      c, hc, rfl⟩
  · simp [hex] at hfc

/-- Any two candidate-table rows with equal score carry the same backend
identity (the only score collision, 85, is Podman on both rows). -/
theorem candidateTable_score_runtime :
    ∀ p ∈ candidateTable.map (fun c => (c.Score, c.Runtime)),
      ∀ q ∈ candidateTable.map (fun c => (c.Score, c.Runtime)),
        p.1 = q.1 → p.2 = q.2 := by
  decide

theorem discovered_score_runtime (w : World) (s t : RuntimeSocket)
    (hs : s ∈ discoveredSockets w) (ht : t ∈ discoveredSockets w)
    (h : s.Score = t.Score) : s.Runtime = t.Runtime :=
  candidateTable_score_runtime (s.Score, s.Runtime) (mem_discoveredSockets w s hs).2.1
    (t.Score, t.Runtime) (mem_discoveredSockets w t ht).2.1 h

/-! ## Helper lemmas: maxima and first-verified elements -/

theorem foldr_max_le (ns : List Nat) (k : Nat) (h : ∀ n ∈ ns, n ≤ k) :
    ns.foldr max 0 ≤ k := by
  induction ns with
  | nil => simp
  | cons n ns ih =>
    simp only [List.foldr_cons]
    have h1 := h n (List.mem_cons_self n ns)
    have h2 := ih fun m hm => h m (List.mem_cons_of_mem n hm)
    omega

theorem le_foldr_max (ns : List Nat) (n : Nat) (h : n ∈ ns) :
    n ≤ ns.foldr max 0 := by
  induction ns with
  | nil => simp at h
  | cons m ms ih =>
    simp only [List.foldr_cons]
    rcases List.mem_cons.mp h with h | h
    · omega
    · have := ih h
      omega

theorem firstVerified_mem (w : World) (l : List RuntimeSocket) (s : RuntimeSocket)
    (h : firstVerified w l = some s) : s ∈ l ∧ w.verifySocketConn s = true := by
  induction l with
  | nil => simp [firstVerified] at h
  | cons x xs ih =>
    by_cases hv : w.verifySocketConn x = true
    · simp only [firstVerified, if_pos hv, Option.some.injEq] at h
      subst h
      exact ⟨List.mem_cons_self x xs, hv⟩
    · simp only [firstVerified, if_neg hv] at h
      obtain ⟨hm, hvs⟩ := ih h
      exact ⟨List.mem_cons_of_mem x hm, hvs⟩

theorem firstVerified_none (w : World) (l : List RuntimeSocket)
    (h : firstVerified w l = none) : ∀ s ∈ l, w.verifySocketConn s = false := by
  induction l with
  | nil => simp
  | cons x xs ih =>
    by_cases hv : w.verifySocketConn x = true
    · simp [firstVerified, hv] at h
    · simp only [firstVerified, if_neg hv] at h
      intro s hs
      rcases List.mem_cons.mp hs with h1 | h1
      · subst h1
        simpa using hv
      · exact ih h s h1

/-- In a score-sorted list, the first verifying element has the maximal
score among all verifying elements. -/
theorem firstVerified_max (w : World) (l : List RuntimeSocket)
    (hsort : l.Pairwise (fun a b => b.Score ≤ a.Score)) (s : RuntimeSocket)
    (h : firstVerified w l = some s) :
    ∀ y ∈ l, w.verifySocketConn y = true → y.Score ≤ s.Score := by
  induction l with
  | nil => simp [firstVerified] at h
  | cons x xs ih =>
    by_cases hv : w.verifySocketConn x = true
    · simp only [firstVerified, if_pos hv, Option.some.injEq] at h
      subst h
      intro y hy hvy
      rcases List.mem_cons.mp hy with h1 | h1
      · subst h1; exact le_refl _
      · exact (List.pairwise_cons.mp hsort).1 y h1
    · simp only [firstVerified, if_neg hv] at h
      intro y hy hvy
      rcases List.mem_cons.mp hy with h1 | h1
      · subst h1
        exact absurd hvy hv
      · exact ih (List.pairwise_cons.mp hsort).2 h y h1 hvy

/-- Core refinement lemma: at the backend-identity level, the verification
loop over the exchange-sorted candidates computes exactly the spec's
selection (highest verified score, ties in encounter order), provided —
as is true of every discovered-socket list — that equal-score candidates
carry the same backend identity. -/
theorem firstVerified_sortSockets_spec (w : World) (L : List RuntimeSocket)
    (hsr : ∀ s ∈ L, ∀ t ∈ L, s.Score = t.Score → s.Runtime = t.Runtime) :
    (firstVerified w (sortSockets L)).map RuntimeSocket.Runtime =
      (specSelect w L).map RuntimeSocket.Runtime := by
  cases hfv : firstVerified w (sortSockets L) with
  | none =>
    have hall := firstVerified_none w (sortSockets L) hfv
    have hfilter : L.filter (fun s => w.verifySocketConn s) = [] := by
      rw [List.filter_eq_nil_iff]
      intro a ha
      simp [hall a ((sortSockets_perm L).mem_iff.mpr ha)]
    simp [specSelect, hfilter]
  | some x =>
    obtain ⟨hmemS, hvx⟩ := firstVerified_mem w (sortSockets L) x hfv
    have hmemL : x ∈ L := (sortSockets_perm L).mem_iff.mp hmemS
    have hmaxL : ∀ y ∈ L, w.verifySocketConn y = true → y.Score ≤ x.Score := by
      intro y hy hvy
      exact firstVerified_max w (sortSockets L) (sortSockets_sorted L) x hfv y
        ((sortSockets_perm L).mem_iff.mpr hy) hvy
    have hxV : x ∈ L.filter (fun s => w.verifySocketConn s) :=
      List.mem_filter.mpr ⟨hmemL, hvx⟩
    have hle : x.Score ≤
        ((L.filter (fun s => w.verifySocketConn s)).map RuntimeSocket.Score).foldr max 0 :=
      le_foldr_max _ _ (List.mem_map_of_mem _ hxV)
    have hge :
        ((L.filter (fun s => w.verifySocketConn s)).map RuntimeSocket.Score).foldr max 0
          ≤ x.Score := by
      apply foldr_max_le
      intro n hn
      obtain ⟨y, hyV, rfl⟩ := List.mem_map.mp hn
      obtain ⟨hyL, hvy⟩ := List.mem_filter.mp hyV
      exact hmaxL y hyL hvy
    have hxbest : x.Score =
        ((L.filter (fun s => w.verifySocketConn s)).map RuntimeSocket.Score).foldr max 0 :=
      le_antisymm hle hge
    cases hfind : (L.filter (fun s => w.verifySocketConn s)).find?
        (fun s => s.Score ==
          ((L.filter (fun s => w.verifySocketConn s)).map RuntimeSocket.Score).foldr max 0) with
    | none =>
      have := List.find?_eq_none.mp hfind x hxV
      simp [← hxbest] at this
    | some z =>
      have hz := List.find?_some hfind
      have hzV := List.mem_of_find?_eq_some hfind
      obtain ⟨hzL, hvz⟩ := List.mem_filter.mp hzV
      have hzx : z.Score = x.Score := by
        rw [hxbest]
        simpa using hz
      have hrt : x.Runtime = z.Runtime := hsr x hmemL z hzL hzx.symm
      simp [specSelect, hfind, hrt]

theorem containsSub_append_right (n a b : List Char) (h : containsSub n b = true) :
    containsSub n (a ++ b) = true := by
  induction a with
  | nil => simpa using h
  | cons c cs ih =>
    simp only [List.cons_append, containsSub, Bool.or_eq_true]
    exact Or.inr ih

theorem strContains_append_right (a b sub : String) (h : strContains b sub = true) :
    strContains (a ++ b) sub = true := by
  simpa [strContains, strData_append] using containsSub_append_right sub.data a.data b.data h

/-- Everything contained in the constant opening of the diagnostic report
is contained in every null-container error message. -/
theorem noRuntimeMessage_contains (w : World) (t : String)
    (h : strContains helpHeader t = true) :
    strContains (nullContainer.noRuntimeMessage w) t = true := by
  have h1 : strContains (GetHelpfulErrorMessage w) t = true :=
    strContains_append_left helpHeader (dockerStatusLine w ++ podmanStatusLine w ++ helpFooter) t h
  exact strContains_append_right "no container runtime available\n\n" (GetHelpfulErrorMessage w) t h1

/-- A world with nothing set and nothing available: every environment
variable unset, expansion the identity, no filesystem entries, every
probe failing. -/
def W0 : World :=
  ⟨fun _ => "", fun s => s, fun _ => none, fun _ => false, false, false, none, none, fun _ => false⟩

/-- A world whose only filesystem entry is the system Docker socket, whose
live connection succeeds; environment unset, both binary verifications
failing. -/
def wDockerSock : World :=
  ⟨fun _ => "", fun s => s,
   fun p => if p = "/var/run/docker.sock" then some ⟨true, false⟩ else none,
   fun s => s.Path == "/var/run/docker.sock", false, false, none, none, fun _ => false⟩

/-- A world where `ACT_CONTAINER_RUNTIME` is set to the uppercase string
`"DOCKER"` and nothing else is set. -/
def wUpperDocker : World :=
  ⟨fun k => if k = "ACT_CONTAINER_RUNTIME" then "DOCKER" else "",
   fun s => s, fun _ => none, fun _ => false, true, false, none, none, fun _ => false⟩

/-- A world where only the Docker binary/daemon verification succeeds. -/
def wDockerOk : World :=
  ⟨fun _ => "", fun s => s, fun _ => none, fun _ => false, true, false, none, none, fun _ => false⟩

/-- A sequence of resolution calls started with a non-`Unknown` override
only ever produces the override. -/
theorem resolveSeq_override (ov : ContainerRuntime) (h : ov ≠ .unknown) :
    ∀ (ws : List World) (d : RuntimeDetector) (r : ContainerRuntime),
      r ∈ resolveSeq ⟨ov, d⟩ ws → r = ov := by
  intro ws
  induction ws with
  | nil => intro d r hr; simp [resolveSeq] at hr
  | cons w ws ih =>
    intro d r hr
    simp only [resolveSeq] at hr
    rcases List.mem_cons.mp hr with h1 | h1
    · rw [h1, getSelectedRuntime, if_pos h]
    · exact ih _ r h1

/-! ## Claims -/

/-- C4: the environment-hints phase checks `ACT_CONTAINER_RUNTIME` (exact
values `docker`/`podman` case-insensitively; any other non-empty value
falls through to the host variables), then `PODMAN_HOST` (presence alone
selects Podman), then `DOCKER_HOST` (presence alone selects Docker), and
yields `Unknown` with none set. -/
theorem checkEnvironmentHints_characterization (w : World) :
    checkEnvironmentHints w =
      (if strToLower (w.getenv "ACT_CONTAINER_RUNTIME") = "docker" then .docker
       else if strToLower (w.getenv "ACT_CONTAINER_RUNTIME") = "podman" then .podman
       else if w.getenv "PODMAN_HOST" ≠ "" then .podman
       else if w.getenv "DOCKER_HOST" ≠ "" then .docker
       else .unknown) := by
  by_cases hact : w.getenv "ACT_CONTAINER_RUNTIME" = ""
  · have h1 : strToLower "" ≠ "docker" := by decide
    have h2 : strToLower "" ≠ "podman" := by decide
    simp [checkEnvironmentHints, hact, h1, h2]
  · simp [checkEnvironmentHints, hact]

/-- C2: `DetectAvailableRuntime` resolves in the order explicit
preference (when set and verified), environment hint (when present and
verified), auto-detection; it returns `Unknown` exactly when all three
phases fail. -/
theorem detect_resolution_order (rd : RuntimeDetector) (w : World) :
    (rd.preferredRuntime ≠ .unknown → verifyRuntime w rd.preferredRuntime = true →
      DetectAvailableRuntime rd w = rd.preferredRuntime)
    ∧ ((rd.preferredRuntime = .unknown ∨ verifyRuntime w rd.preferredRuntime = false) →
        checkEnvironmentHints w ≠ .unknown →
        verifyRuntime w (checkEnvironmentHints w) = true →
        DetectAvailableRuntime rd w = checkEnvironmentHints w)
    ∧ ((rd.preferredRuntime = .unknown ∨ verifyRuntime w rd.preferredRuntime = false) →
        (checkEnvironmentHints w = .unknown ∨
          verifyRuntime w (checkEnvironmentHints w) = false) →
        DetectAvailableRuntime rd w = autoDetectRuntime rd w)
    ∧ (DetectAvailableRuntime rd w = .unknown ↔
        (rd.preferredRuntime = .unknown ∨ verifyRuntime w rd.preferredRuntime = false)
        ∧ (checkEnvironmentHints w = .unknown ∨
            verifyRuntime w (checkEnvironmentHints w) = false)
        ∧ autoDetectRuntime rd w = .unknown) := by
  by_cases c1 : rd.preferredRuntime ≠ .unknown ∧ verifyRuntime w rd.preferredRuntime = true
  · have key : DetectAvailableRuntime rd w = rd.preferredRuntime := by
      simp only [DetectAvailableRuntime]
      rw [if_pos c1]
    refine ⟨fun _ _ => key, ?_, ?_, ?_⟩
    · rintro (h | h) _ _
      · exact absurd h c1.1
      · rw [c1.2] at h; cases h
    · rintro (h | h) _
      · exact absurd h c1.1
      · rw [c1.2] at h; cases h
    · rw [key]
      constructor
      · intro h; exact absurd h c1.1
      · rintro ⟨(h | h), _, _⟩
        · exact absurd h c1.1
        · rw [c1.2] at h; cases h
  · have c1f : ¬(rd.preferredRuntime ≠ .unknown ∧
        (verifyRuntime w rd.preferredRuntime) = true) := c1
    by_cases c2 : checkEnvironmentHints w ≠ .unknown ∧
        verifyRuntime w (checkEnvironmentHints w) = true
    · have key : DetectAvailableRuntime rd w = checkEnvironmentHints w := by
        simp only [DetectAvailableRuntime]
        rw [if_neg c1f, if_pos c2]
      refine ⟨?_, fun _ _ _ => key, ?_, ?_⟩
      · intro h1 h2; exact absurd ⟨h1, h2⟩ c1
      · rintro _ (h | h)
        · exact absurd h c2.1
        · rw [c2.2] at h; cases h
      · rw [key]
        constructor
        · intro h; exact absurd h c2.1
        · rintro ⟨_, (h | h), _⟩
          · exact absurd h c2.1
          · rw [c2.2] at h; cases h
    · have key : DetectAvailableRuntime rd w = autoDetectRuntime rd w := by
        simp only [DetectAvailableRuntime]
        rw [if_neg c1f, if_neg c2]
      have d1 : rd.preferredRuntime = .unknown ∨
          verifyRuntime w rd.preferredRuntime = false := by
        by_cases h : rd.preferredRuntime = .unknown
        · exact Or.inl h
        · refine Or.inr ?_
          by_cases hv : verifyRuntime w rd.preferredRuntime = true
          · exact absurd ⟨h, hv⟩ c1
          · simpa using hv
      have d2 : checkEnvironmentHints w = .unknown ∨
          verifyRuntime w (checkEnvironmentHints w) = false := by
        by_cases h : checkEnvironmentHints w = .unknown
        · exact Or.inl h
        · refine Or.inr ?_
          by_cases hv : verifyRuntime w (checkEnvironmentHints w) = true
          · exact absurd ⟨h, hv⟩ c2
          · simpa using hv
      refine ⟨?_, ?_, fun _ _ => key, ?_⟩
      · intro h1 h2; exact absurd ⟨h1, h2⟩ c1
      · intro _ h1 h2; exact absurd ⟨h1, h2⟩ c2
      · rw [key]
        constructor
        · intro h; exact ⟨d1, d2, h⟩
        · rintro ⟨_, _, h⟩; exact h

/-- Witness for C2 at a concrete input: a detector preferring Docker in a
world where Docker verifies resolves to Docker. -/
theorem detect_resolution_order_witness :
    DetectAvailableRuntime ⟨.docker, ""⟩ wDockerOk = .docker :=
  (detect_resolution_order ⟨.docker, ""⟩ wDockerOk).1 (by decide) rfl

/-- C3: with no custom socket configured, auto-detection returns exactly
the backend of the spec's selection over the discovered candidates — the
candidate with the strictly highest score among those passing live
verification, ties between equal scores broken by candidate-table
encounter order — and a candidate is discovered only when its
environment-expanded path comes from the candidate table and exists as a
socket or named pipe (an ordinary file, with neither mode bit, is never
discovered). -/
theorem autoDetect_highest_verified_score (rd : RuntimeDetector) (w : World)
    (h : rd.customSocket = "") :
    autoDetectRuntime rd w =
      (((specSelect w (discoveredSockets w)).map RuntimeSocket.Runtime).getD .unknown)
    ∧ (∀ s ∈ discoveredSockets w, socketExists w s.Path = true ∧
        ∃ c ∈ candidateTable, s.Path = w.expandEnv c.Path)
    ∧ (∀ p m, w.lstat p = some m → m.isSocket = false → m.isNamedPipe = false →
        socketExists w p = false) := by
  refine ⟨?_, ?_, ?_⟩
  · have hd : detectRuntimeSockets rd w = sortSockets (discoveredSockets w) := by
      simp [detectRuntimeSockets, h]
    have hkey := firstVerified_sortSockets_spec w (discoveredSockets w)
      (fun s hs t ht => discovered_score_runtime w s t hs ht)
    simp only [autoDetectRuntime, hd]
    cases hfv : firstVerified w (sortSockets (discoveredSockets w)) with
    | none =>
      rw [hfv] at hkey
      have : specSelect w (discoveredSockets w) = none := by
        cases hs : specSelect w (discoveredSockets w) with
        | none => rfl
        | some z => rw [hs] at hkey; simp at hkey
      rw [this]
      rfl
    | some x =>
      rw [hfv] at hkey
      cases hs : specSelect w (discoveredSockets w) with
      | none => rw [hs] at hkey; simp at hkey
      | some z =>
        rw [hs] at hkey
        simp at hkey
        simp [hkey]
  · intro s hs
    obtain ⟨h1, _, h3⟩ := mem_discoveredSockets w s hs
    exact ⟨h1, h3⟩
  · intro p m hm hs hp
    simp [socketExists, hm, hs, hp]

/-- Witness for C3 at a concrete input: in the world whose only socket is
the live system Docker socket, auto-detection returns Docker, matching
the spec selection. -/
theorem autoDetect_highest_verified_score_witness :
    autoDetectRuntime NewRuntimeDetector wDockerSock =
      (((specSelect wDockerSock (discoveredSockets wDockerSock)).map
        RuntimeSocket.Runtime).getD .unknown) :=
  (autoDetect_highest_verified_score NewRuntimeDetector wDockerSock rfl).1

/-- C1: the factory returns the Null Adapter (never an absent handle)
when resolution yields `Unknown`; every mutating operation of the Null
Adapter fails with the same non-empty diagnostic message, which carries
install guidance for both Docker and Podman; every metadata/query
operation returns inert Linux-like defaults without error; health is
always unhealthy. -/
theorem nullAdapter_contract (w : World) (st : FactoryState) (input : NewContainerInput)
    (capAdd capDrop command : List String) (files : List FileEntry)
    (destPath srcPath tarStream user workdir : String)
    (env : List (String × String)) (useGitIgnore forcePull attach : Bool)
    (o e : String) :
    ((getSelectedRuntime st w).1 = .unknown → (NewContainer input st w).1 = .nullAdapter)
    ∧ nullContainer.Create w capAdd capDrop = .error (nullContainer.noRuntimeMessage w)
    ∧ nullContainer.Copy w destPath files = .error (nullContainer.noRuntimeMessage w)
    ∧ nullContainer.CopyTarStream w destPath tarStream = .error (nullContainer.noRuntimeMessage w)
    ∧ nullContainer.CopyDir w destPath srcPath useGitIgnore = .error (nullContainer.noRuntimeMessage w)
    ∧ nullContainer.Pull w forcePull = .error (nullContainer.noRuntimeMessage w)
    ∧ nullContainer.Start w attach = .error (nullContainer.noRuntimeMessage w)
    ∧ nullContainer.Exec w command env user workdir = .error (nullContainer.noRuntimeMessage w)
    ∧ nullContainer.UpdateFromEnv w srcPath = .error (nullContainer.noRuntimeMessage w)
    ∧ nullContainer.UpdateFromImageEnv w = .error (nullContainer.noRuntimeMessage w)
    ∧ nullContainer.Remove w = .error (nullContainer.noRuntimeMessage w)
    ∧ nullContainer.Close w = .error (nullContainer.noRuntimeMessage w)
    ∧ nullContainer.noRuntimeMessage w ≠ ""
    ∧ strContains (nullContainer.noRuntimeMessage w) "Docker" = true
    ∧ strContains (nullContainer.noRuntimeMessage w) "Podman" = true
    ∧ strContains (nullContainer.noRuntimeMessage w) "https://docs.docker.com/get-docker/" = true
    ∧ strContains (nullContainer.noRuntimeMessage w)
        "https://podman.io/getting-started/installation" = true
    ∧ nullContainer.ReplaceLogWriter o e = (o, e)
    ∧ nullContainer.GetHealth = Health.unhealthy
    ∧ nullContainer.ToContainerPath destPath = destPath
    ∧ nullContainer.GetActPath = "/opt/act"
    ∧ nullContainer.GetPathVariableName = "PATH"
    ∧ nullContainer.DefaultPathVariable = "/usr/local/sbin:/usr/local/bin:/usr/sbin:/usr/bin:/sbin:/bin"
    ∧ nullContainer.GetRunnerContext =
        [ ("os", "linux"), ("arch", "x64"), ("temp", "/tmp"),
          ("tool_cache", "/opt/hostedtoolcache"), ("action_path", "/github/workspace"),
          ("workspace", "/github/workspace") ]
    ∧ nullContainer.IsEnvironmentCaseInsensitive = false := by
  refine ⟨?_, rfl, rfl, rfl, rfl, rfl, rfl, rfl, rfl, rfl, rfl, rfl, ?_, ?_, ?_, ?_, ?_,
    rfl, rfl, rfl, rfl, rfl, rfl, rfl, rfl⟩
  · intro hu
    simp [NewContainer, hu, adapterFor]
  · intro hc
    have hD := noRuntimeMessage_contains w "Docker" (by decide)
    rw [hc] at hD
    exact absurd hD (by decide)
  · exact noRuntimeMessage_contains w "Docker" (by decide)
  · exact noRuntimeMessage_contains w "Podman" (by decide)
  · exact noRuntimeMessage_contains w "https://docs.docker.com/get-docker/" (by decide)
  · exact noRuntimeMessage_contains w "https://podman.io/getting-started/installation" (by decide)

/-- Witness for C1 at a concrete input: with nothing available, the
factory hands back the Null Adapter. -/
theorem nullAdapter_contract_witness :
    (NewContainer ⟨"test:latest", "test-container"⟩ ⟨.unknown, NewRuntimeDetector⟩ W0).1 =
      AdapterKind.nullAdapter :=
  (nullAdapter_contract W0 ⟨.unknown, NewRuntimeDetector⟩ ⟨"test:latest", "test-container"⟩
    [] [] [] [] "" "" "" "" "" [] false false false "" "").1 rfl

/-- C5: while the test-only override is any value other than `Unknown`,
every resolution call returns exactly the override — `getSelectedRuntime`
returns it and leaves the detector untouched, `GetCurrentRuntime` returns
it, `NewContainer` instantiates the adapter for it, and any sequence of
further resolution calls keeps returning it until the override is cleared
back to `Unknown`. -/
theorem override_wins (st : FactoryState) (w : World) (input : NewContainerInput)
    (h : st.runtimeOverride ≠ .unknown) :
    (getSelectedRuntime st w).1 = st.runtimeOverride
    ∧ (getSelectedRuntime st w).2 = st.detector
    ∧ GetCurrentRuntime st w = st.runtimeOverride
    ∧ (NewContainer input st w).1 = adapterFor st.runtimeOverride
    ∧ ∀ (ws : List World) (r : ContainerRuntime),
        r ∈ resolveSeq st ws → r = st.runtimeOverride := by
  have h1 : getSelectedRuntime st w = (st.runtimeOverride, st.detector) := by
    simp only [getSelectedRuntime]
    rw [if_pos h]
  refine ⟨by rw [h1], by rw [h1], ?_, ?_, ?_⟩
  · simp only [GetCurrentRuntime]
    rw [h1]
  · simp only [NewContainer]
    rw [h1]
  · intro ws r hr
    exact resolveSeq_override st.runtimeOverride h ws st.detector r hr

/-- Witness for C5 at a concrete input: with the override set to Podman in
a world with nothing available, resolution still returns Podman. -/
theorem override_wins_witness :
    (getSelectedRuntime ⟨.podman, NewRuntimeDetector⟩ W0).1 = ContainerRuntime.podman :=
  (override_wins ⟨.podman, NewRuntimeDetector⟩ W0 ⟨"", ""⟩ (by decide)).1

/-- C6: `NewContainerWithRuntime` verifies the forced backend before
instantiating: verification failure (including the `Unknown` identity,
which never verifies) yields the Null Adapter, and a real Docker or
Podman adapter is produced only for that verified backend. -/
theorem forced_runtime_verified (input : NewContainerInput) (st : FactoryState) (w : World)
    (rt : ContainerRuntime) :
    (verifyRuntime w rt = false → NewContainerWithRuntime input st w rt = .nullAdapter)
    ∧ (NewContainerWithRuntime input st w rt = .dockerAdapter →
        rt = .docker ∧ verifyRuntime w .docker = true)
    ∧ (NewContainerWithRuntime input st w rt = .podmanAdapter →
        rt = .podman ∧ verifyRuntime w .podman = true)
    ∧ NewContainerWithRuntime input st w .unknown = .nullAdapter := by
  refine ⟨?_, ?_, ?_, by simp [NewContainerWithRuntime, verifyRuntime]⟩
  · intro hv
    simp [NewContainerWithRuntime, hv]
  · intro hd
    by_cases hv : verifyRuntime w rt = true
    · cases rt with
      | docker => exact ⟨rfl, hv⟩
      | podman => simp [NewContainerWithRuntime, hv] at hd
      | unknown => simp [verifyRuntime] at hv
    · have hv0 : verifyRuntime w rt = false := by simpa using hv
      simp [NewContainerWithRuntime, hv0] at hd
  · intro hp
    by_cases hv : verifyRuntime w rt = true
    · cases rt with
      | podman => exact ⟨rfl, hv⟩
      | docker => simp [NewContainerWithRuntime, hv] at hp
      | unknown => simp [verifyRuntime] at hv
    · have hv0 : verifyRuntime w rt = false := by simpa using hv
      simp [NewContainerWithRuntime, hv0] at hp

/-- Witness for C6 at a concrete input: forcing Docker in a world where
Docker does not verify yields the Null Adapter. -/
theorem forced_runtime_verified_witness :
    NewContainerWithRuntime ⟨"", ""⟩ ⟨.unknown, NewRuntimeDetector⟩ W0 .docker =
      AdapterKind.nullAdapter :=
  (forced_runtime_verified ⟨"", ""⟩ ⟨.unknown, NewRuntimeDetector⟩ W0 .docker).1 rfl

/-- C7 (code bug): at a world where neither backend verifies,
`GetAvailableRuntimes` returns the nil slice (`none` in the Go-slice
model: `var available []ContainerRuntime` is never appended to), whereas
the claim — and the repository's own `TestGetAvailableRuntimes`, which
fatals on a nil result — require a non-nil empty sequence. -/
theorem getAvailableRuntimes_nil_slice :
    GetAvailableRuntimes ⟨.unknown, NewRuntimeDetector⟩ W0 = none := rfl

/-- C8 counterexample: with a custom socket override configured,
`GetSocketForRuntime` succeeds with the raw override string, which is
not normalized to a `unix://` or `npipe://` URI (and, the override being
the only considered candidate, no live-connection verification guards
it: `W0` fails every probe). -/
theorem custom_socket_uri_not_normalized :
    GetSocketForRuntime ⟨.unknown, "/custom/socket"⟩ W0 .docker = some "/custom/socket"
    ∧ strHasPref "/custom/socket" "unix://" = false
    ∧ strHasPref "/custom/socket" "npipe://" = false :=
  ⟨rfl, by decide, by decide⟩

theorem strHasPref_append (p q : String) : strHasPref (p ++ q) p = true := by
  simpa [strHasPref, strData_append] using isPref_self_append p.data q.data

/-- C8 as amended: when no custom socket override is configured and (for
Podman requests) the machine-socket lookup yields nothing, every socket
URI `GetSocketForRuntime` returns with success comes from a discovered
candidate — existing as a socket or named pipe after environment
expansion — that passed live-connection verification, and is normalized
with a `unix://` or `npipe://` scheme. -/
theorem socket_uri_normalized (rd : RuntimeDetector) (w : World)
    (rt : ContainerRuntime) (uri : String)
    (hcs : rd.customSocket = "")
    (hm : rt = .podman → getPodmanMachineSocket w = none)
    (h : GetSocketForRuntime rd w rt = some uri) :
    ∃ s ∈ discoveredSockets w,
      w.verifySocketConn s = true ∧ s.Runtime = rt ∧ socketExists w s.Path = true ∧
      uri = normalizeURI s.Path ∧
      (strHasPref uri "unix://" = true ∨ strHasPref uri "npipe://" = true) := by
  have hns : ¬(rd.customSocket ≠ "") := by simp [hcs]
  have hmach : (if rt = .podman then getPodmanMachineSocket w else none) = none := by
    by_cases hrt : rt = .podman
    · simp [hrt, hm hrt]
    · simp [hrt]
  simp only [GetSocketForRuntime, if_neg hns, hmach] at h
  have hd : detectRuntimeSockets rd w = sortSockets (discoveredSockets w) := by
    simp [detectRuntimeSockets, hcs]
  rw [hd] at h
  cases hfind : (sortSockets (discoveredSockets w)).find?
      (fun s => s.Runtime == rt && w.verifySocketConn s) with
  | none =>
    rw [hfind] at h
    simp at h
  | some s =>
    rw [hfind] at h
    simp only [Option.some.injEq] at h
    have hp := List.find?_some hfind
    simp only [Bool.and_eq_true, beq_iff_eq] at hp
    have hmemS := List.mem_of_find?_eq_some hfind
    have hmemL : s ∈ discoveredSockets w := (sortSockets_perm _).mem_iff.mp hmemS
    have hex := (mem_discoveredSockets w s hmemL).1
    refine ⟨s, hmemL, hp.2, hp.1, hex, h.symm, ?_⟩
    rw [← h, normalizeURI]
    by_cases hw : strHasPref s.Path "\\\\.\\" = true
    · rw [if_pos hw]
      exact Or.inr (strHasPref_append "npipe://" (toSlash s.Path))
    · rw [if_neg (by simpa using hw)]
      exact Or.inl (strHasPref_append "unix://" s.Path)

/-- Witness for the amended C8 at a concrete input: in the world whose
only entry is the live system Docker socket, the Docker socket URI is the
normalized, verified `unix://` form. -/
theorem socket_uri_normalized_witness :
    ∃ s ∈ discoveredSockets wDockerSock,
      wDockerSock.verifySocketConn s = true ∧ s.Runtime = ContainerRuntime.docker ∧
      socketExists wDockerSock s.Path = true ∧
      "unix:///var/run/docker.sock" = normalizeURI s.Path ∧
      (strHasPref "unix:///var/run/docker.sock" "unix://" = true ∨
        strHasPref "unix:///var/run/docker.sock" "npipe://" = true) :=
  socket_uri_normalized NewRuntimeDetector wDockerSock .docker "unix:///var/run/docker.sock"
    rfl (fun hc => absurd hc (by decide)) (by decide)

/-- C9 counterexample: with `ACT_CONTAINER_RUNTIME=DOCKER` (uppercase),
`configureDetectorFromEnvironment` leaves the preference unchanged
(`Unknown`), where the claim's case-insensitive reading requires the
preference to become Docker. -/
theorem configure_uppercase_ignored :
    (configureDetectorFromEnvironment wUpperDocker NewRuntimeDetector).preferredRuntime =
      ContainerRuntime.unknown
    ∧ ¬((configureDetectorFromEnvironment wUpperDocker NewRuntimeDetector).preferredRuntime =
      ContainerRuntime.docker) :=
  ⟨rfl, by decide⟩

/-- C9 as amended: reading `ACT_CONTAINER_RUNTIME` in the factory's
environment configuration sets the preferred backend case-sensitively:
exactly the lowercase strings `"docker"`/`"podman"` set that backend, and
any other value — including uppercase variants — leaves the preference
unchanged. -/
theorem configure_exact_lowercase_match (w : World) (d : RuntimeDetector) :
    (configureDetectorFromEnvironment w d).preferredRuntime =
      (if w.getenv "ACT_CONTAINER_RUNTIME" = "docker" then .docker
       else if w.getenv "ACT_CONTAINER_RUNTIME" = "podman" then .podman
       else d.preferredRuntime) := by
  by_cases h1 : w.getenv "ACT_CONTAINER_RUNTIME" = "docker" <;>
    by_cases h2 : w.getenv "ACT_CONTAINER_RUNTIME" = "podman" <;>
      by_cases h3 : w.getenv "ACT_CONTAINER_SOCKET" = "" <;>
        simp [configureDetectorFromEnvironment, h1, h2, h3]

/-- C10: the test-only override plays no part in forced container
creation: `NewContainerWithRuntime` computes the same adapter for any two
factory states (so for any override value), and an unavailable forced
backend yields the Null Adapter even while an override naming it is
set. -/
theorem forced_creation_ignores_override (input : NewContainerInput) (w : World)
    (rt : ContainerRuntime) (st st2 : FactoryState) :
    NewContainerWithRuntime input st w rt = NewContainerWithRuntime input st2 w rt
    ∧ (verifyRuntime w rt = false → NewContainerWithRuntime input st w rt = .nullAdapter) :=
  ⟨rfl, fun hv => by simp [NewContainerWithRuntime, hv]⟩

/-- Witness for C10 at a concrete input: with the override set to Docker
but Docker unavailable, the forced path still returns the Null
Adapter. -/
theorem forced_creation_ignores_override_witness :
    NewContainerWithRuntime ⟨"", ""⟩ ⟨.docker, NewRuntimeDetector⟩ W0 .docker =
      AdapterKind.nullAdapter :=
  (forced_creation_ignores_override ⟨"", ""⟩ W0 .docker ⟨.docker, NewRuntimeDetector⟩
    ⟨.unknown, NewRuntimeDetector⟩).2 rfl

end Act
